import Mathlib

/-!
Verification of the squarified-treemap layout engine of this repository
(`treemap.ts`): `worst`, `normalize`, `layoutRow`, `squarify`, `treemap`.

The embedding is shallow: JavaScript numbers are modelled as rationals
(exact arithmetic; JavaScript division by zero yields Infinity while ℚ
division by zero yields 0 — every place where this matters is noted at the
corresponding theorem), arrays as lists, and the mutable accumulation in
`squarify` as explicit arguments.  The opaque `data?: any` payload is
modelled as `Option String`.
-/

namespace TreemapSpec

/-- `TreemapItem` from the source: `{ id: string; weight: number; data?: any }`. -/
structure TreemapItem where
  id : String
  weight : ℚ
  data : Option String := none
  deriving Repr, DecidableEq

/-- `TreemapRect` from the source: `{ id; x; y; width; height; data? }`. -/
structure TreemapRect where
  id : String
  x : ℚ
  y : ℚ
  width : ℚ
  height : ℚ
  data : Option String := none
  deriving Repr, DecidableEq

/-- `Container` from the source: `{ x; y; width; height }`. -/
structure Container where
  x : ℚ
  y : ℚ
  width : ℚ
  height : ℚ
  deriving Repr, DecidableEq

/-- `row.reduce((acc, item) => acc + item.weight, 0)` — the weight sum used by
`worst`, `normalize` and `layoutRow`. -/
def sumWeights (row : List TreemapItem) : ℚ :=
  row.foldl (fun acc item => acc + item.weight) 0

/-- `Math.max(...xs)` on a non-empty argument list: fold of `max` over the
elements.  (The source only ever applies it to non-empty rows; the `[]` case
of this model is arbitrary.) -/
def jsMax : List ℚ → ℚ
  | [] => 0
  | x :: xs => xs.foldl max x

/-- `Math.min(...xs)` on a non-empty argument list. -/
def jsMin : List ℚ → ℚ
  | [] => 0
  | x :: xs => xs.foldl min x

/-- `worst(row, width)` from the source: the worst aspect ratio in a row,
`max(width²·rowMax/sum², sum²/(width²·rowMin))`. -/
def worst (row : List TreemapItem) (width : ℚ) : ℚ :=
  let sum := sumWeights row
  let rowMax := jsMax (row.map (fun item => item.weight))
  let rowMin := jsMin (row.map (fun item => item.weight))
  max ((width * width * rowMax) / (sum * sum)) ((sum * sum) / (width * width * rowMin))

/-- `normalize(items, area)` from the source: rescale each weight by
`item.weight / totalWeight * area`. -/
def normalize (items : List TreemapItem) (area : ℚ) : List TreemapItem :=
  let totalWeight := sumWeights items
  items.map (fun item => { item with weight := item.weight / totalWeight * area })

/-- The `for (const item of row)` loop of `layoutRow`: emit one rectangle per
item, advancing `offsetX` by the width of each rectangle. -/
def layoutRowRects (row : List TreemapItem) (rowHeight : ℚ) (offsetX y : ℚ) :
    List TreemapRect :=
  match row with
  | [] => []
  | item :: rest =>
    let rectWidth := item.weight / rowHeight
    { id := item.id, x := offsetX, y := y, width := rectWidth, height := rowHeight,
      data := item.data } :: layoutRowRects rest rowHeight (offsetX + rectWidth) y

/-- `layoutRow(row, width, container)` from the source: place the rectangles of the row left to right at the top of `container` with thickness
`rowHeight = sum / width`, and return the container shrunk by `rowHeight`
from the top. -/
def layoutRow (row : List TreemapItem) (width : ℚ) (container : Container) :
    List TreemapRect × Container :=
  let sum := sumWeights row
  let rowHeight := sum / width
  let rects := layoutRowRects row rowHeight container.x container.y
  let remaining : Container :=
    { x := container.x, y := container.y + rowHeight,
      width := container.width, height := container.height - rowHeight }
  (rects, remaining)

/-- `squarify(items, row, container, rects)` from the source, with the mutable
`rects` accumulator made an explicit argument.  The `row.length === 0` tests of the source are rendered as pattern matches on `row` (`[]` versus `r :: rs`); the
second disjunct of the condition of the source `worstWithItem < worstCurrent ||
row.length === 0` is dead code (the empty-row case returned earlier) and is
dropped.  In the source, the layout-and-start-new-row branch tail-calls
`squarify(items, [], newContainer, rects)` with `items = item :: remaining`
unchanged; that call deterministically takes the empty-row branch next, so it
is inlined one step here (`squarify remaining [item] newContainer rects`),
making the recursion structural.  `squarify_newrow_source_step` below proves
the un-inlined, source-shaped equation for this branch. -/
def squarify : List TreemapItem → List TreemapItem → Container →
    List TreemapRect → List TreemapRect
  | [], [], _, rects => rects
  | [], r :: rs, container, rects =>
    rects ++ (layoutRow (r :: rs) (min container.width container.height) container).1
  | item :: remaining, [], container, rects =>
    squarify remaining [item] container rects
  | item :: remaining, r :: rs, container, rects =>
    if worst ((r :: rs) ++ [item]) (min container.width container.height) <
        worst (r :: rs) (min container.width container.height) then
      squarify remaining ((r :: rs) ++ [item]) container rects
    else
      squarify remaining [item]
        (layoutRow (r :: rs) (min container.width container.height) container).2
        (rects ++ (layoutRow (r :: rs) (min container.width container.height) container).1)

/-- `treemap(items, containerWidth, containerHeight)` from the source.  The
JavaScript stable sort `[...normalized].sort((a, b) => b.weight - a.weight)`
(stable descending by weight) is modelled by the stable
`List.insertionSort` under the relation `b.weight ≤ a.weight`. -/
def treemap (items : List TreemapItem) (containerWidth containerHeight : ℚ) :
    List TreemapRect :=
  if items.length = 0 then
    []
  else
    let validItems := items.filter (fun item => item.weight > 0)
    if validItems.length = 0 then
      []
    else
      let area := containerWidth * containerHeight
      let normalized := normalize validItems area
      let sorted := normalized.insertionSort (fun a b => b.weight ≤ a.weight)
      let container : Container :=
        { x := 0, y := 0, width := containerWidth, height := containerHeight }
      squarify sorted [] container []

/-- A point `(px, py)` lies in a rectangle (closed bounds). -/
def containsPoint (rect : TreemapRect) (px py : ℚ) : Prop :=
  rect.x ≤ px ∧ px ≤ rect.x + rect.width ∧ rect.y ≤ py ∧ py ≤ rect.y + rect.height

/-- The items of Scenario A of the spec: weights `[3, 2, 1]`. -/
def items321 : List TreemapItem :=
  [{ id := "1", weight := 3 }, { id := "2", weight := 2 }, { id := "3", weight := 1 }]

/-! ### Helper lemmas -/

theorem foldl_add_weight (l : List TreemapItem) (c : ℚ) :
    l.foldl (fun acc item => acc + item.weight) c = c + (l.map (fun i => i.weight)).sum := by
  induction l generalizing c with
  | nil => simp
  | cons x xs ih => simp [ih, add_assoc]

theorem sumWeights_eq_sum (l : List TreemapItem) :
    sumWeights l = (l.map (fun i => i.weight)).sum := by
  simp [sumWeights, foldl_add_weight]

theorem sumWeights_pos (l : List TreemapItem) (h1 : l ≠ [])
    (h2 : ∀ i ∈ l, 0 < i.weight) : 0 < sumWeights l := by
  rw [sumWeights_eq_sum]
  apply List.sum_pos
  · intro x hx
    obtain ⟨i, hi, rfl⟩ := List.mem_map.mp hx
    exact h2 i hi
  · simpa using h1

/-- The source-shaped unfolding of the layout-and-start-new-row branch: when
the open row is non-empty and adding `item` does not strictly improve the
worst ratio, `squarify` equals the literal source tail call
`squarify(items, [], newContainer, rects ++ rowRects)` (which in turn steps to
the new row `[item]`); this justifies the one-step inlining in the
definition of `squarify`. -/
theorem squarify_newrow_source_step (i r : TreemapItem) (rest rs : List TreemapItem)
    (c : Container) (rects : List TreemapRect)
    (hge : ¬ worst ((r :: rs) ++ [i]) (min c.width c.height) <
      worst (r :: rs) (min c.width c.height)) :
    squarify (i :: rest) (r :: rs) c rects =
      squarify (i :: rest) []
        (layoutRow (r :: rs) (min c.width c.height) c).2
        (rects ++ (layoutRow (r :: rs) (min c.width c.height) c).1) := by
  conv_lhs => rw [squarify]
  rw [if_neg hge]
  conv_rhs => rw [squarify]

theorem layoutRowRects_map_id (row : List TreemapItem) (rowHeight : ℚ) (offsetX y : ℚ) :
    (layoutRowRects row rowHeight offsetX y).map (fun rect => rect.id) =
      row.map (fun item => item.id) := by
  induction row generalizing offsetX with
  | nil => simp [layoutRowRects]
  | cons x xs ih => simp [layoutRowRects, ih]

theorem squarify_map_id (items : List TreemapItem) :
    ∀ (row : List TreemapItem) (c : Container) (rects : List TreemapRect),
    (squarify items row c rects).map (fun rect => rect.id) =
      rects.map (fun rect => rect.id) ++ row.map (fun item => item.id) ++
        items.map (fun item => item.id) := by
  induction items with
  | nil =>
    intro row c rects
    match row with
    | [] => simp [squarify]
    | r :: rs => simp [squarify, layoutRow, layoutRowRects_map_id]
  | cons i rest ih =>
    intro row c rects
    match row with
    | [] => simp [squarify, ih]
    | r :: rs =>
      rw [squarify]
      by_cases hlt : worst ((r :: rs) ++ [i]) (min c.width c.height) <
          worst (r :: rs) (min c.width c.height)
      · rw [if_pos hlt, ih]
        simp
      · rw [if_neg hlt, ih]
        simp [layoutRow, layoutRowRects_map_id]

theorem squarify_length (items row : List TreemapItem) (c : Container)
    (rects : List TreemapRect) :
    (squarify items row c rects).length =
      rects.length + row.length + items.length := by
  have h := congrArg List.length (squarify_map_id items row c rects)
  simpa [Nat.add_assoc] using h

theorem jsMax_eq_max? (x : ℚ) (xs : List ℚ) :
    jsMax (x :: xs) = ((x :: xs).max?).getD 0 := rfl

theorem jsMin_eq_min? (x : ℚ) (xs : List ℚ) :
    jsMin (x :: xs) = ((x :: xs).min?).getD 0 := rfl

/-- Concrete run of the engine on the Scenario A input (weights `[3, 2, 1]`,
container `600 × 800`).  After the first two rows are laid out, the remaining
sub-container is `{x 0, y 800, width 600, height 0}`, so the flush of the last
row divides by `width = min 600 0 = 0`; in this exact-arithmetic model the
division yields `0` and the last rectangle is degenerate (in the IEEE-754
source it has `width 0` and `height Infinity`). -/
theorem treemap_items321_eval : treemap items321 600 800 =
    [{ id := "1", x := 0, y := 0, width := 600, height := 400 },
     { id := "2", x := 0, y := 400, width := 400, height := 400 },
     { id := "3", x := 0, y := 800, width := 0, height := 0 }] := by
  norm_num [treemap, items321, normalize, sumWeights, jsMax, jsMin, worst,
    List.insertionSort, List.orderedInsert, squarify, layoutRow, layoutRowRects]

/-! ### Claim theorems -/

/-- Claim C1 (code_bug evidence): the rectangles returned for positive weights
`[3, 2, 1]` in the `600 × 800` container do not cover the container: the point
`(500, 600)` lies in `[0,600] × [0,800]` but in none of the returned
rectangles, so the union of the output is not the container region. -/
theorem treemap_coverage_gap :
    (treemap items321 600 800).Forall (fun rect => ¬ containsPoint rect 500 600) := by
  rw [treemap_items321_eval]
  norm_num [List.Forall, containsPoint]

/-- Claim C2 (code_bug evidence): for the positive-weight input `[3, 2, 1]`
and the `600 × 800` container, the sum of `rect.width * rect.height` over the
output is `400000`, which differs from `width * height = 480000` by far more
than the stated tolerance of 1 square unit. -/
theorem treemap_area_sum_violation :
    |(((treemap items321 600 800).map (fun rect => rect.width * rect.height)).sum)
      - 600 * 800| > 1 := by
  rw [treemap_items321_eval]
  norm_num

/-- Claim C3 (code_bug evidence): for input weights `[3, 2, 1]` in the
`600 × 800` container the output areas are `[240000, 160000, 0]`; the third
item (weight 1) receives relative area `0 / 480000 = 0` instead of
`1 / 6`, a deviation far beyond the stated `0.01` tolerance. -/
theorem treemap_proportionality_violation :
    ((treemap items321 600 800).map (fun rect => rect.width * rect.height)) =
      [240000, 160000, 0] ∧
    ¬ |(0 : ℚ) / (600 * 800) - 1 / (3 + 2 + 1)| ≤ 1 / 100 := by
  rw [treemap_items321_eval]
  norm_num [abs_le]

/-- Claim C4 (code_bug evidence): a single item of weight 1 in a `400 × 300`
container yields the rectangle `{x 0, y 0, width 300, height 400}` — the
width/height of the container swapped, protruding 100 units below the
container — instead of the container itself
(`layoutRow` always lays rows horizontally with thickness `sum / min(w, h)`
and never transposes, so for `width > height` the single rectangle is
rotated).  The concrete instance of the claim with container `300 × 400` does
hold; the universally quantified claim fails. -/
theorem treemap_single_item_rotated :
    treemap [{ id := "1", weight := 1 }] 400 300 =
      [{ id := "1", x := 0, y := 0, width := 300, height := 400 }] := by
  norm_num [treemap, normalize, sumWeights, jsMax, jsMin, worst,
    List.insertionSort, List.orderedInsert, squarify, layoutRow, layoutRowRects]

/-- Claim C5 (code_bug evidence): Scenario A — items with weights `[3, 2, 1]`
in the `600 × 800` container — returns 3 rectangles with areas
`[240000, 160000, 0]`: the areas are not in ratio `3 : 2 : 1` and they sum to
`400000`, not `480000`. -/
theorem treemap_scenario_a_violation :
    treemap items321 600 800 =
      [{ id := "1", x := 0, y := 0, width := 600, height := 400 },
       { id := "2", x := 0, y := 400, width := 400, height := 400 },
       { id := "3", x := 0, y := 800, width := 0, height := 0 }] ∧
    ((treemap items321 600 800).map (fun rect => rect.width * rect.height)).sum ≠
      600 * 800 := by
  rw [treemap_items321_eval]
  norm_num

/-- Claim C6: with a non-empty open row `r :: rs`, `squarify` appends the next
item to the row exactly when `worst(row ++ [item], side)` is strictly less
than `worst(row, side)` (with `side = min(width, height)` of the current
sub-container); otherwise — including the tie case, where the two worst
ratios are equal — the row is laid out (its rectangles are appended to the
accumulator, the sub-container shrinks) and the item starts the new row
alone. -/
theorem squarify_row_decision (i r : TreemapItem) (rest rs : List TreemapItem)
    (c : Container) (rects : List TreemapRect) :
    (worst ((r :: rs) ++ [i]) (min c.width c.height) <
        worst (r :: rs) (min c.width c.height) →
      squarify (i :: rest) (r :: rs) c rects =
        squarify rest ((r :: rs) ++ [i]) c rects) ∧
    (¬ worst ((r :: rs) ++ [i]) (min c.width c.height) <
        worst (r :: rs) (min c.width c.height) →
      squarify (i :: rest) (r :: rs) c rects =
        squarify rest [i] (layoutRow (r :: rs) (min c.width c.height) c).2
          (rects ++ (layoutRow (r :: rs) (min c.width c.height) c).1)) := by
  constructor
  · intro hlt
    conv_lhs => rw [squarify]
    rw [if_pos hlt]
  · intro hge
    conv_lhs => rw [squarify]
    rw [if_neg hge]

/-- The open row, next item and container of the concrete tie instance used
in the witness of `squarify_row_decision`: equal weights 2 and 2 with
`side = 2` give `worst(row) = worst(row ++ [item]) = 2`. -/
def rowTie : List TreemapItem := [{ id := "a", weight := 2 }]

/-- The next item of the tie instance. -/
def itemTie : TreemapItem := { id := "b", weight := 2 }

/-- The container of the tie instance (shorter side 2). -/
def cTie : Container := { x := 0, y := 0, width := 2, height := 3 }

/-- Witness for `squarify_row_decision` at a concrete tie: both worst ratios
equal 2, so the row is laid out and the item starts the new row. -/
theorem squarify_row_decision_witness :
    (¬ worst (rowTie ++ [itemTie]) (min cTie.width cTie.height) <
        worst rowTie (min cTie.width cTie.height)) ∧
    squarify [itemTie] rowTie cTie [] =
      squarify [] [itemTie] (layoutRow rowTie (min cTie.width cTie.height) cTie).2
        ([] ++ (layoutRow rowTie (min cTie.width cTie.height) cTie).1) := by
  have hge : ¬ worst (rowTie ++ [itemTie]) (min cTie.width cTie.height) <
      worst rowTie (min cTie.width cTie.height) := by
    norm_num [worst, sumWeights, jsMax, jsMin, rowTie, itemTie, cTie]
  exact ⟨hge, (squarify_row_decision itemTie { id := "a", weight := 2 } [] [] cTie []).2 hge⟩

/-- Claim C7: for a non-empty row of positively weighted items and any side
length, `worst(row, side)` equals
`max(side² · max(weights) / sum(weights)², sum(weights)² / (side² · min(weights)))`,
where the maximum, minimum and sum are over the weights of the row. -/
theorem worst_formula (row : List TreemapItem) (side : ℚ)
    (h1 : row ≠ []) (h2 : ∀ i ∈ row, 0 < i.weight) :
    worst row side =
      max ((side * side * (((row.map (fun i => i.weight)).max?).getD 0)) /
            ((row.map (fun i => i.weight)).sum * (row.map (fun i => i.weight)).sum))
          (((row.map (fun i => i.weight)).sum * (row.map (fun i => i.weight)).sum) /
            (side * side * (((row.map (fun i => i.weight)).min?).getD 0))) := by
  match row with
  | r :: rs =>
    rw [worst, sumWeights_eq_sum]
    rw [show (r :: rs).map (fun i => i.weight) = r.weight :: rs.map (fun i => i.weight)
      from rfl]
    rw [jsMax_eq_max?, jsMin_eq_min?]

/-- A concrete non-empty positively weighted row used by witnesses. -/
def rowAB : List TreemapItem := [{ id := "a", weight := 3 }, { id := "b", weight := 1 }]

/-- Witness for `worst_formula` at the row with weights `[3, 1]` and side 2. -/
theorem worst_formula_witness :
    (rowAB ≠ []) ∧ (∀ i ∈ rowAB, 0 < i.weight) ∧
    worst rowAB 2 =
      max ((2 * 2 * (((rowAB.map (fun i => i.weight)).max?).getD 0)) /
            ((rowAB.map (fun i => i.weight)).sum * (rowAB.map (fun i => i.weight)).sum))
          (((rowAB.map (fun i => i.weight)).sum * (rowAB.map (fun i => i.weight)).sum) /
            (2 * 2 * (((rowAB.map (fun i => i.weight)).min?).getD 0))) :=
  ⟨by simp [rowAB], by decide, worst_formula rowAB 2 (by simp [rowAB]) (by decide)⟩

/-- Claim C8: `treemap` is total, and its output has exactly one rectangle per
positive-weight input item: the output length equals the number of items with
`weight > 0`, and the multiset of output rectangle ids is exactly the multiset
of ids of the positive-weight items (so items with `weight ≤ 0` contribute no
rectangle, and an empty or fully non-positive input yields `[]`). -/
theorem treemap_positive_items (items : List TreemapItem) (cw ch : ℚ) :
    (treemap items cw ch).length = (items.filter (fun item => item.weight > 0)).length ∧
    ((treemap items cw ch).map (fun rect => rect.id)).Perm
      ((items.filter (fun item => item.weight > 0)).map (fun item => item.id)) := by
  unfold treemap
  by_cases h0 : items.length = 0
  · have : items = [] := List.length_eq_zero.mp h0
    subst this
    simp
  · rw [if_neg h0]
    by_cases hv : (items.filter (fun item => item.weight > 0)).length = 0
    · rw [if_pos hv]
      have hnil : items.filter (fun item => item.weight > 0) = [] :=
        List.length_eq_zero.mp hv
      simp [hnil]
    · rw [if_neg hv]
      simp only []
      set validItems := items.filter (fun item => item.weight > 0) with hval
      set normalized := normalize validItems (cw * ch) with hnorm
      set sorted := normalized.insertionSort (fun a b => b.weight ≤ a.weight) with hsort
      have hids := squarify_map_id sorted []
        { x := 0, y := 0, width := cw, height := ch } []
      simp only [List.map_nil, List.nil_append] at hids
      have hnormid : normalized.map (fun item => item.id) =
          validItems.map (fun item => item.id) := by
        simp [hnorm, normalize]
      have hlen : sorted.length = validItems.length := by
        rw [hsort, List.length_insertionSort, hnorm, normalize]
        simp
      constructor
      · have := congrArg List.length hids
        simpa [hlen] using this
      · rw [hids, ← hnormid]
        exact (List.perm_insertionSort _ normalized).map _

/-- Claim C9: `normalize` keeps the length of the list, rescales the k-th
weight to `items[k].weight / totalWeight * area` (with `totalWeight` the sum
of the weights, which for an all-positive input is the total positive
weight), and the rescaled weights sum exactly to the target area — an exact
identity of rational arithmetic. -/
theorem normalize_spec (items : List TreemapItem) (area : ℚ)
    (h1 : items ≠ []) (h2 : ∀ i ∈ items, 0 < i.weight) :
    (normalize items area).length = items.length ∧
    (∀ k : Nat, ((normalize items area)[k]?).map (fun i => i.weight) =
      (items[k]?).map (fun i => i.weight / sumWeights items * area)) ∧
    ((normalize items area).map (fun i => i.weight)).sum = area := by
  have hT : sumWeights items ≠ 0 := ne_of_gt (sumWeights_pos items h1 h2)
  refine ⟨by simp [normalize], ?_, ?_⟩
  · intro k
    cases hk : items[k]? <;> simp [normalize, List.getElem?_map, hk]
  · have hmap : ((normalize items area).map (fun i => i.weight)).sum =
        (items.map (fun i => i.weight * (area / sumWeights items))).sum := by
      simp [normalize, Function.comp_def, div_mul_eq_mul_div, mul_div_assoc]
    rw [hmap, List.sum_map_mul_right, ← sumWeights_eq_sum, mul_div_assoc',
      mul_div_cancel_left₀ _ hT]

/-- Witness for `normalize_spec` at the row with weights `[3, 1]` and target
area 8 (rescaled weights `[6, 2]`). -/
theorem normalize_spec_witness :
    (rowAB ≠ []) ∧ (∀ i ∈ rowAB, 0 < i.weight) ∧
    ((normalize rowAB 8).length = rowAB.length ∧
    (∀ k : Nat, ((normalize rowAB 8)[k]?).map (fun i => i.weight) =
      (rowAB[k]?).map (fun i => i.weight / sumWeights rowAB * 8)) ∧
    ((normalize rowAB 8).map (fun i => i.weight)).sum = 8) :=
  ⟨by simp [rowAB], by decide, normalize_spec rowAB 8 (by simp [rowAB]) (by decide)⟩

/-- Claim C10: `squarify` (and hence `treemap`) is a total function of its
arguments — in this embedding it is defined by recursion that consumes one
unplaced item per step (the row-flush step of the source is fused with the
forced consumption of the item that follows it), and every call yields an
output, of length `rects.length + row.length + items.length`, so the
recursion of the source is well-founded and the pipeline cannot stall.  The
`O(n log n)` running-time bound itself is outside this embedding. -/
theorem squarify_treemap_total :
    (∀ (items : List TreemapItem) (cw ch : ℚ), ∃ out, treemap items cw ch = out) ∧
    (∀ (items row : List TreemapItem) (c : Container) (rects : List TreemapRect),
      ∃ out, squarify items row c rects = out ∧
        out.length = rects.length + row.length + items.length) :=
  ⟨fun items cw ch => ⟨treemap items cw ch, rfl⟩,
   fun items row c rects =>
     ⟨squarify items row c rects, rfl, squarify_length items row c rects⟩⟩

end TreemapSpec
